import Mathlib

/-!
# Verification of the Jira backlog point-summary extension

Shallow embedding of the repository's two content scripts:

* `src/unnamed/part_001` — the API variant: `getDevType`, `processSprintData`,
  `extractBoardId`, `fetchSprintData`, `updateUI`, and the orchestration in
  `addDevTypeSummaries`.
* `src/content.js` — the DOM variant (namespace `ContentJs`): its own
  `getDevType`, `calculateDevTypeSummary`, and the bounded retry loop of its
  second-generation `addDevTypeSummaries` / `scheduleRetry`.

JavaScript strings are modelled as Lean `String` (lower-casing is ASCII, which
covers every recognized tag), story-point values as `Nat`, and the process-wide
`Map`/`Set` state as association lists with JavaScript `Map` semantics
(set replaces in place, insertion order preserved).
-/

/-- The four classification outcomes of `getDevType`.  The source returns the
strings `'Fullstack'`, `'FE'`, `'BE'`, `'Other'`. -/
inductive DevType where
  | Fullstack
  | FE
  | BE
  | Other
deriving DecidableEq, Repr

/-- `hasSubstr l pat` is true iff `pat` occurs as a contiguous run inside `l`. -/
def hasSubstr (l pat : List Char) : Bool :=
  if pat.isPrefixOf l then
    true
  else
    match l with
    | [] => false
    | _ :: rest => hasSubstr rest pat

/-- JavaScript `String.prototype.toLowerCase`, modelled character-wise (ASCII
lower-casing, which covers every recognized tag).  The title is kept as its
character list so that everything evaluates in the kernel. -/
def lowerChars (s : String) : List Char :=
  s.toList.map Char.toLower

/-- JavaScript `String.prototype.includes`: `strIncludes l pat` is true iff
`pat` occurs as a contiguous substring of the string with characters `l`. -/
def strIncludes (l : List Char) (pat : String) : Bool :=
  hasSubstr l pat.toList

/-- `src/unnamed/part_001` lines 229–242: classify a ticket title.  Lower-cases
the summary, then tests the tag pairs in order: fullstack first, then
frontend, then backend. -/
def getDevType (summary : String) : DevType :=
  let lowerSummary := lowerChars summary
  if strIncludes lowerSummary "[fullstack]" || strIncludes lowerSummary "[fs]" then
    DevType.Fullstack
  else if strIncludes lowerSummary "[fe]" || strIncludes lowerSummary "[frontend]" then
    DevType.FE
  else if strIncludes lowerSummary "[be]" || strIncludes lowerSummary "[backend]" then
    DevType.BE
  else
    DevType.Other

namespace ContentJs

/-- `src/content.js` lines 374–387 (identical to lines 88–101): the DOM
variant's classifier.  Note it recognizes only `[fullstack]`, `[fe]`, `[be]` —
not `[fs]`, `[frontend]`, `[backend]`. -/
def getDevType (summary : String) : DevType :=
  let lowerSummary := lowerChars summary
  if strIncludes lowerSummary "[fullstack]" then
    DevType.Fullstack
  else if strIncludes lowerSummary "[fe]" then
    DevType.FE
  else if strIncludes lowerSummary "[be]" then
    DevType.BE
  else
    DevType.Other

end ContentJs

/-- A sprint descriptor from the backlog-data response (`data.sprints`). -/
structure Sprint where
  id : Nat
  name : String
  state : String
deriving DecidableEq, Repr

/-- An issue descriptor from the backlog-data response (`data.issues`), after
the defaulting on lines 186–189 of `part_001` (`|| []`, `|| 0`, `|| ''`):
`estimate` is `issue.estimateStatistic?.statFieldValue?.value || 0`. -/
structure Issue where
  summary : String
  estimate : Nat
  sprintIds : List Nat
  statusName : String
deriving DecidableEq, Repr

/-- The parsed backlog-data response body (after `data.sprints || []` and
`data.issues || []`). -/
structure ApiData where
  sprints : List Sprint
  issues : List Issue
deriving DecidableEq, Repr

/-- The three per-category point totals of one sprint (`summary` field). -/
structure Summary where
  BE : Nat
  FE : Nat
  Fullstack : Nat
deriving DecidableEq, Repr

/-- One category's status breakdown (`detailed[devType]`). -/
structure DetailEntry where
  inProgress : Nat
  done : Nat
deriving DecidableEq, Repr

/-- The per-category status breakdowns of one sprint (`detailed` field). -/
structure Detailed where
  BE : DetailEntry
  FE : DetailEntry
  Fullstack : DetailEntry
deriving DecidableEq, Repr

/-- The per-sprint record stored in the `sprintData` map (lines 166–182). -/
structure SprintInfo where
  id : Nat
  name : String
  state : String
  summary : Summary
  detailed : Detailed
deriving DecidableEq, Repr

/-- The process-wide `sprintData` JavaScript `Map`, keyed by sprint id. -/
abbrev SprintMap := List (Nat × SprintInfo)

/-- `Map.get`. -/
def mapGet (m : SprintMap) (k : Nat) : Option SprintInfo :=
  match m with
  | [] => none
  | (k', v) :: rest => if k' = k then some v else mapGet rest k

/-- `Map.set`: replace in place if the key exists, else append. -/
def mapSet (m : SprintMap) (k : Nat) (v : SprintInfo) : SprintMap :=
  match m with
  | [] => [(k, v)]
  | (k', v') :: rest => if k' = k then (k, v) :: rest else (k', v') :: mapSet rest k v

/-- `Map.has`. -/
def mapHas (m : SprintMap) (k : Nat) : Bool :=
  (mapGet m k).isSome

/-- Line 163: `const doneStatuses = ['Closed', 'Done', 'On Prod', 'On RC', "Won't Do"]`. -/
def doneStatuses : List String :=
  ["Closed", "Done", "On Prod", "On RC", "Won't Do"]

/-- `doneStatuses.includes(status)` (line 196). -/
def isDoneStatus (status : String) : Bool :=
  doneStatuses.contains status

/-- Lines 206–213: add `pts` to the category total of `devType` and to the
matching `done`/`inProgress` bucket.  The `Other` arm is unreachable in the
source (guarded by `devType !== 'Other'` on line 200). -/
def addToInfo (info : SprintInfo) (devType : DevType) (pts : Nat) (isDone : Bool) :
    SprintInfo :=
  let bump : DetailEntry → DetailEntry := fun e =>
    if isDone then { e with done := e.done + pts } else { e with inProgress := e.inProgress + pts }
  match devType with
  | DevType.BE =>
      { info with summary := { info.summary with BE := info.summary.BE + pts },
                  detailed := { info.detailed with BE := bump info.detailed.BE } }
  | DevType.FE =>
      { info with summary := { info.summary with FE := info.summary.FE + pts },
                  detailed := { info.detailed with FE := bump info.detailed.FE } }
  | DevType.Fullstack =>
      { info with summary := { info.summary with Fullstack := info.summary.Fullstack + pts },
                  detailed := { info.detailed with Fullstack := bump info.detailed.Fullstack } }
  | DevType.Other => info

/-- The body of `issues.forEach` (lines 185–216): skip zero-point issues; for a
classified issue with a non-empty membership list, take the *last* sprint id
and, only when that id is a key of the map, add the points there. -/
def processIssue (m : SprintMap) (issue : Issue) : SprintMap :=
  if issue.estimate = 0 then
    m
  else
    let devType := getDevType issue.summary
    let isDone := isDoneStatus issue.statusName
    if issue.sprintIds.length > 0 && !(devType == DevType.Other) then
      match issue.sprintIds.getLast? with
      | none => m
      | some mostRecentSprintId =>
          match mapGet m mostRecentSprintId with
          | none => m
          | some sprintInfo =>
              mapSet m mostRecentSprintId (addToInfo sprintInfo devType issue.estimate isDone)
    else
      m

/-- Lines 166–182: initialize the map with one zeroed record per sprint. -/
def initSprintMap (sprints : List Sprint) : SprintMap :=
  sprints.foldl
    (fun m s =>
      mapSet m s.id
        { id := s.id, name := s.name, state := s.state,
          summary := { BE := 0, FE := 0, Fullstack := 0 },
          detailed := { BE := { inProgress := 0, done := 0 },
                        FE := { inProgress := 0, done := 0 },
                        Fullstack := { inProgress := 0, done := 0 } } })
    []

/-- `processSprintData` (lines 151–224).  `sprintData.clear()` on line 155
discards the previous map contents, so the `_oldSprintData` argument never
reaches the result. -/
def processSprintData (_oldSprintData : SprintMap) (data : ApiData) : SprintMap :=
  data.issues.foldl processIssue (initSprintMap data.sprints)

namespace ContentJs

/-- A rendered ticket row as seen by the first-generation DOM scraper
(`src/content.js` lines 57–79): the parsed story points (`parseInt(...) || 0`,
zero when the points element is absent or unparsable) and the text of the
summary element when one was found (lines 73–76 skip the row otherwise). -/
structure DomIssue where
  storyPoints : Nat
  summaryText : Option String
deriving DecidableEq, Repr

/-- The body of `issues.forEach` in `calculateDevTypeSummary`
(`src/content.js` lines 57–83).  In the source, `summary[devType] +=
storyPoints` on line 82 runs even for `'Other'`, but that writes a junk
`Other` key on the object, not one of the three category totals, so the
record of the three totals is unchanged. -/
def calcStep (acc : Summary) (issue : DomIssue) : Summary :=
  if issue.storyPoints = 0 then
    acc
  else
    match issue.summaryText with
    | none => acc
    | some summaryText =>
        match getDevType summaryText with
        | DevType.BE => { acc with BE := acc.BE + issue.storyPoints }
        | DevType.FE => { acc with FE := acc.FE + issue.storyPoints }
        | DevType.Fullstack => { acc with Fullstack := acc.Fullstack + issue.storyPoints }
        | DevType.Other => acc

/-- `calculateDevTypeSummary` (`src/content.js` lines 49–86). -/
def calculateDevTypeSummary (issues : List DomIssue) : Summary :=
  issues.foldl calcStep { BE := 0, FE := 0, Fullstack := 0 }

/-- `src/content.js` line 173. -/
def MAX_RETRY_ATTEMPTS : Nat := 3

/-- `src/content.js` line 174, in milliseconds. -/
def RETRY_DELAY : Nat := 3000

/-- Observable state of the second-generation retry controller: the
process-wide `attemptCount`, how many times the container scan
(`querySelectorAll`, line 197) has run, and how many badges have been
inserted into the host page. -/
structure RetryState where
  attemptCount : Nat
  scansPerformed : Nat
  pageMutations : Nat
deriving DecidableEq, Repr

/-- `scheduleRetry` (`src/content.js` lines 389–395): schedules another
`addDevTypeSummaries` call after `RETRY_DELAY` ms iff `attemptCount <
MAX_RETRY_ATTEMPTS`.  Returns whether a retry was scheduled. -/
def scheduleRetry (attemptCount : Nat) : Bool :=
  attemptCount < MAX_RETRY_ATTEMPTS

/-- One invocation of the second-generation `addDevTypeSummaries`
(`src/content.js` lines 179–205) on a backlog page where the container scan
finds no sprint containers — the scenario driving the bounded retry loop.
Line 183 returns before any scan or mutation once `attemptCount ≥
MAX_RETRY_ATTEMPTS`; otherwise the count is incremented, the scan runs,
finds nothing, and `scheduleRetry` is called.  Returns the new state and
whether a retry was scheduled. -/
def addDevTypeSummariesNoContainers (st : RetryState) : RetryState × Bool :=
  if MAX_RETRY_ATTEMPTS ≤ st.attemptCount then
    (st, false)
  else
    let st' : RetryState :=
      { st with attemptCount := st.attemptCount + 1,
                scansPerformed := st.scansPerformed + 1 }
    (st', scheduleRetry st'.attemptCount)

/-- Runs the retry loop to completion (each scheduled `setTimeout` fires and
re-invokes `addDevTypeSummaries`; no containers ever appear).  `fuel` bounds
the number of invocations considered. -/
def runRetryLoop : Nat → RetryState → RetryState
  | 0, st => st
  | fuel + 1, st =>
      let step := addDevTypeSummariesNoContainers st
      if step.2 then runRetryLoop fuel step.1 else step.1

end ContentJs

/-- The maximal leading run of decimal digits — the greedy `\d+` of the
regexes in `extractBoardId`. -/
def takeDigitsPrefix : List Char → List Char
  | [] => []
  | c :: cs => if c.isDigit then c :: takeDigitsPrefix cs else []

/-- Leftmost match of a regex of the shape `pat(\d+)` (no anchors): scan left
to right and, at the first position where `pat` occurs immediately followed
by at least one digit, return that maximal digit run (capture group 1).
Models `url.match(/boards\/(\d+)/)` and `url.match(/rapidView=(\d+)/)`. -/
def matchPatDigits (pat : List Char) : List Char → Option (List Char)
  | [] => none
  | c :: cs =>
      let digits := takeDigitsPrefix ((c :: cs).drop pat.length)
      if pat.isPrefixOf (c :: cs) && !digits.isEmpty then
        some digits
      else
        matchPatDigits pat cs

/-- `extractBoardId` (`src/unnamed/part_001` lines 99–115): try
`boards/(\d+)` first, then `rapidView=(\d+)`, then fall back to `'24'`. -/
def extractBoardId (url : String) : String :=
  match matchPatDigits "boards/".toList url.toList with
  | some digits => String.mk digits
  | none =>
      match matchPatDigits "rapidView=".toList url.toList with
      | some digits => String.mk digits
      | none => "24"

/-- The constant part of the backlog-data endpoint built on line 129 of
`src/unnamed/part_001`; the board id is interpolated at the end. -/
def apiEndpointBase : String :=
  "https://pitchtech.atlassian.net/rest/greenhopper/1.0/xboard/plan/v2/backlog/data?forceConsistency=true&operation=fetchBacklogData&rapidViewId="

/-- The template literal of line 129: `` `...rapidViewId=${boardId}` ``. -/
def apiEndpoint (boardId : String) : String :=
  apiEndpointBase ++ boardId

/-- Outcome of the `fetch(apiEndpoint)` call on line 132: either the promise
rejects (network failure) or a response with an HTTP status and a parsed
body arrives. -/
inductive FetchOutcome where
  | networkError
  | response (status : Nat) (body : ApiData)
deriving DecidableEq, Repr

/-- The error thrown out of `fetchSprintData`: the rethrown network error, or
the `Error` built on line 135 whose message carries the response status. -/
inductive FetchError where
  | network
  | httpStatus (status : Nat)
deriving DecidableEq, Repr

/-- `Response.ok`: status in the inclusive-exclusive range 200–299. -/
def respOk (status : Nat) : Bool :=
  200 ≤ status && status < 300

/-- `fetchSprintData` (`src/unnamed/part_001` lines 120–146): on a non-ok
response throw an error carrying the status; on success run
`processSprintData` and return the rebuilt map. -/
def fetchSprintData (oldSprintData : SprintMap) (outcome : FetchOutcome) :
    Except FetchError SprintMap :=
  match outcome with
  | FetchOutcome.networkError => Except.error FetchError.network
  | FetchOutcome.response status body =>
      if !respOk status then
        Except.error (FetchError.httpStatus status)
      else
        Except.ok (processSprintData oldSprintData body)

/-- `sprintName.replace(/\s+/g, '-')` (line 441): every maximal run of
whitespace becomes a single dash.  `prevWs` records whether the previous
character belonged to a whitespace run (whose dash is already emitted). -/
def squashWhitespace (prevWs : Bool) : List Char → List Char
  | [] => []
  | c :: cs =>
      if c.isWhitespace then
        (if prevWs then [] else ['-']) ++ squashWhitespace true cs
      else
        c :: squashWhitespace false cs

/-- The dedup key of a sprint section (line 441). -/
def containerId (sprintName : String) : String :=
  String.mk (squashWhitespace false sprintName.toList)

/-- A sprint section of the live page as seen by `updateUI`
(`src/unnamed/part_001` lines 427–441): its `h2` display name, and whether
the structural lookups succeed (`statsArea` parent on line 428 and the
enclosing drop-target `sprintContainer` on line 434 — when either is
missing the section is skipped). -/
structure Container where
  sprintName : String
  eligible : Bool
deriving DecidableEq, Repr

/-- The all-zero totals initialized on line 449. -/
def zeroSummary : Summary :=
  { BE := 0, FE := 0, Fullstack := 0 }

/-- The all-zero breakdown initialized on lines 450–454. -/
def zeroDetailed : Detailed :=
  { BE := { inProgress := 0, done := 0 },
    FE := { inProgress := 0, done := 0 },
    Fullstack := { inProgress := 0, done := 0 } }

/-- Lines 456–465: scan the `sprintData` map in insertion order for the first
entry whose `name` equals the sprint section's display name; default to the
zero totals when none matches. -/
def lookupByName (m : SprintMap) (sprintName : String) : Summary × Detailed :=
  match m with
  | [] => (zeroSummary, zeroDetailed)
  | (_, info) :: rest =>
      if info.name = sprintName then (info.summary, info.detailed)
      else lookupByName rest sprintName

/-- The process-wide observable state of the API variant: the `sprintData`
map, the `injectedSprints` set, and the badges inserted into the page so far
(dedup key paired with the totals shown). -/
structure UIState where
  sprintData : SprintMap
  injectedSprints : List String
  badges : List (String × Summary)
deriving DecidableEq, Repr

/-- The body of the `estimationContainers.forEach` in `updateUI`
(`src/unnamed/part_001` lines 427–475): skip sections whose structural
lookups fail, skip sections already in `injectedSprints`, otherwise render a
badge (zero totals when `usePlaceholders`, else the totals matched by name)
and record the section as injected. -/
def updateUIStep (usePlaceholders : Bool) (st : UIState) (c : Container) : UIState :=
  if !c.eligible then
    st
  else
    let cid := containerId c.sprintName
    if st.injectedSprints.contains cid then
      st
    else
      let shown :=
        if usePlaceholders then zeroSummary
        else (lookupByName st.sprintData c.sprintName).1
      { st with badges := st.badges ++ [(cid, shown)],
                injectedSprints := st.injectedSprints ++ [cid] }

/-- `updateUI` (`src/unnamed/part_001` lines 423–476). -/
def updateUI (usePlaceholders : Bool) (containers : List Container) (st : UIState) :
    UIState :=
  containers.foldl (updateUIStep usePlaceholders) st

/-- The orchestration of `addDevTypeSummaries` after the board gate
(`src/unnamed/part_001` lines 38–50): with cached data, update the UI
directly; otherwise fetch, then update the UI, and on any fetch failure fall
back to `updateUI(true)` — the error is caught here and never propagates. -/
def addDevTypeSummaries (outcome : FetchOutcome) (containers : List Container)
    (st : UIState) : UIState :=
  if st.sprintData.length > 0 then
    updateUI false containers st
  else
    match fetchSprintData st.sprintData outcome with
    | Except.ok newData => updateUI false containers { st with sprintData := newData }
    | Except.error _ => updateUI true containers st

/-- The bookkeeping invariant of one sprint record: each category total equals
its in-progress bucket plus its done bucket. -/
def InfoInv (info : SprintInfo) : Prop :=
  info.summary.BE = info.detailed.BE.inProgress + info.detailed.BE.done ∧
  info.summary.FE = info.detailed.FE.inProgress + info.detailed.FE.done ∧
  info.summary.Fullstack
    = info.detailed.Fullstack.inProgress + info.detailed.Fullstack.done

/-- `InfoInv` holds of every record stored in a sprint map. -/
def MapInv (m : SprintMap) : Prop :=
  ∀ sid info, mapGet m sid = some info → InfoInv info

/-! ## General lemmas about the association-list `Map` model -/

theorem mapGet_mapSet_self (m : SprintMap) (k : Nat) (v : SprintInfo) :
    mapGet (mapSet m k v) k = some v := by
  induction m with
  | nil => simp [mapSet, mapGet]
  | cons hd tl ih =>
      obtain ⟨k', v'⟩ := hd
      by_cases h : k' = k
      · simp [mapSet, mapGet, h]
      · simp [mapSet, mapGet, h, ih]

theorem mapGet_mapSet_ne (m : SprintMap) (k : Nat) (v : SprintInfo) (s : Nat)
    (h : s ≠ k) : mapGet (mapSet m k v) s = mapGet m s := by
  induction m with
  | nil => simp [mapSet, mapGet, Ne.symm h]
  | cons hd tl ih =>
      obtain ⟨k', v'⟩ := hd
      by_cases hk : k' = k
      · subst hk
        simp [mapSet, mapGet, Ne.symm h]
      · by_cases hs : k' = s
        · simp [mapSet, mapGet, hk, hs, h]
        · simp [mapSet, mapGet, hk, hs, ih]

/-! ## Claim theorems -/

/-- C2 counterexample: the DOM variant's classifier (`src/content.js`), one of
the two `getDevType` implementations the claim covers, does not recognize the
`[fs]` tag: the title `"[FS] Shared util"` is classified `Other`, not
`Fullstack`. -/
theorem dom_classifier_fs_counterexample :
    ContentJs.getDevType "[FS] Shared util" = DevType.Other ∧
    DevType.Other ≠ DevType.Fullstack := by
  decide

/-- C2 (amended): every title whose lower-casing contains `"[fs]"` or
`"[fullstack]"` is classified `Fullstack` by the API variant's classifier
(`src/unnamed/part_001`), regardless of co-occurring `[fe]`/`[be]` tags,
because the fullstack tags are matched first; the DOM variant's classifier
(`src/content.js`) guarantees this only for `"[fullstack]"` — it does not
recognize `"[fs]"`. -/
theorem fullstack_tag_priority (s : String) :
    (strIncludes (lowerChars s) "[fs]" = true ∨
        strIncludes (lowerChars s) "[fullstack]" = true →
      getDevType s = DevType.Fullstack) ∧
    (strIncludes (lowerChars s) "[fullstack]" = true →
      ContentJs.getDevType s = DevType.Fullstack) := by
  constructor
  · intro h
    unfold getDevType
    rcases h with h | h <;> simp [h]
  · intro h
    unfold ContentJs.getDevType
    simp [h]

/-- C2 witness: concrete fullstack-tagged titles, classified through
`fullstack_tag_priority`. -/
theorem fullstack_tag_priority_witness :
    getDevType "[FS] Shared util with [BE] parts" = DevType.Fullstack ∧
    ContentJs.getDevType "[Fullstack] api [fe] widget" = DevType.Fullstack :=
  ⟨(fullstack_tag_priority "[FS] Shared util with [BE] parts").1 (Or.inl (by decide)),
   (fullstack_tag_priority "[Fullstack] api [fe] widget").2 (by decide)⟩

/-- C4: the end-to-end example.  Processing the four issues against the two
sprints yields Sprint 7 totals BE 3, FE 5, Fullstack 0 and Sprint 8 totals
BE 0, FE 0, Fullstack 2: the `[FS]` issue's memberships are `[1, 2]`, so only
sprint 2 receives its points, and the untagged issue counts nowhere. -/
theorem aggregation_end_to_end_example :
    (mapGet (processSprintData []
      { sprints := [{ id := 1, name := "Sprint 7", state := "active" },
                    { id := 2, name := "Sprint 8", state := "future" }],
        issues := [{ summary := "[BE] Fix login", estimate := 3, sprintIds := [1], statusName := "" },
                   { summary := "[FE] Update nav", estimate := 5, sprintIds := [1], statusName := "" },
                   { summary := "[FS] Shared util", estimate := 2, sprintIds := [1, 2], statusName := "" },
                   { summary := "Misc cleanup", estimate := 1, sprintIds := [1], statusName := "" }] }) 1).map
        (fun info => info.summary) = some { BE := 3, FE := 5, Fullstack := 0 } ∧
    (mapGet (processSprintData []
      { sprints := [{ id := 1, name := "Sprint 7", state := "active" },
                    { id := 2, name := "Sprint 8", state := "future" }],
        issues := [{ summary := "[BE] Fix login", estimate := 3, sprintIds := [1], statusName := "" },
                   { summary := "[FE] Update nav", estimate := 5, sprintIds := [1], statusName := "" },
                   { summary := "[FS] Shared util", estimate := 2, sprintIds := [1, 2], statusName := "" },
                   { summary := "Misc cleanup", estimate := 1, sprintIds := [1], statusName := "" }] }) 2).map
        (fun info => info.summary) = some { BE := 0, FE := 0, Fullstack := 2 } := by
  decide

/-- C8: the DOM variant's retry loop is bounded.  An invocation with
`attemptCount` already at `MAX_RETRY_ATTEMPTS` returns its state unchanged —
no scan, no page mutation, no retry; the constants are 3 attempts and a
3000 ms delay; and with no containers ever appearing, the whole loop performs
exactly 3 scans, mutates the page zero times, and stops, however many timer
firings one allows for. -/
theorem retry_loop_bounded :
    (∀ st : ContentJs.RetryState,
        ContentJs.MAX_RETRY_ATTEMPTS ≤ st.attemptCount →
        ContentJs.addDevTypeSummariesNoContainers st = (st, false)) ∧
    ContentJs.MAX_RETRY_ATTEMPTS = 3 ∧
    ContentJs.RETRY_DELAY = 3000 ∧
    (∀ fuel, 3 ≤ fuel →
        ContentJs.runRetryLoop fuel
            { attemptCount := 0, scansPerformed := 0, pageMutations := 0 }
          = { attemptCount := 3, scansPerformed := 3, pageMutations := 0 }) := by
  refine ⟨?_, rfl, rfl, ?_⟩
  · intro st h
    simp [ContentJs.addDevTypeSummariesNoContainers, h]
  · intro fuel hf
    obtain ⟨k, rfl⟩ : ∃ k, fuel = k + 1 + 1 + 1 := ⟨fuel - 3, by omega⟩
    simp [ContentJs.runRetryLoop, ContentJs.addDevTypeSummariesNoContainers,
      ContentJs.scheduleRetry, ContentJs.MAX_RETRY_ATTEMPTS]

/-- C8 witness: `retry_loop_bounded` at the saturated state and at fuel 5. -/
theorem retry_loop_bounded_witness :
    ContentJs.addDevTypeSummariesNoContainers
        { attemptCount := 3, scansPerformed := 3, pageMutations := 0 }
      = ({ attemptCount := 3, scansPerformed := 3, pageMutations := 0 }, false) ∧
    ContentJs.runRetryLoop 5 { attemptCount := 0, scansPerformed := 0, pageMutations := 0 }
      = { attemptCount := 3, scansPerformed := 3, pageMutations := 0 } :=
  ⟨retry_loop_bounded.1 { attemptCount := 3, scansPerformed := 3, pageMutations := 0 } (by decide),
   retry_loop_bounded.2.2.2 5 (by decide)⟩

/-- C10: the backlog-data endpoint is the fixed absolute URL with the board id
interpolated at the end; its host part is the constant
`https://pitchtech.atlassian.net/`, whatever the board id. -/
theorem apiEndpoint_fixed_host (boardId : String) :
    apiEndpoint boardId =
      "https://pitchtech.atlassian.net/rest/greenhopper/1.0/xboard/plan/v2/backlog/data?forceConsistency=true&operation=fetchBacklogData&rapidViewId="
        ++ boardId ∧
    List.isPrefixOf "https://pitchtech.atlassian.net/".toList (apiEndpoint boardId).toList
      = true := by
  refine ⟨rfl, ?_⟩
  have hsplit : (apiEndpoint boardId).toList
      = "https://pitchtech.atlassian.net/".toList
        ++ ("rest/greenhopper/1.0/xboard/plan/v2/backlog/data?forceConsistency=true&operation=fetchBacklogData&rapidViewId=".toList
            ++ boardId.toList) := by
    show (apiEndpointBase ++ boardId).data = _
    have hbase : apiEndpointBase.data
        = "https://pitchtech.atlassian.net/".data
          ++ "rest/greenhopper/1.0/xboard/plan/v2/backlog/data?forceConsistency=true&operation=fetchBacklogData&rapidViewId=".data := by
      decide
    calc (apiEndpointBase ++ boardId).data
        = apiEndpointBase.data ++ boardId.data := rfl
      _ = _ := by rw [hbase, List.append_assoc]; rfl
  rw [hsplit]
  simp [List.isPrefixOf_iff_prefix]

/-- C1 counterexample: sprints `{1}`, one classified 3-point ticket with
membership list `[1, 2]` where sprint 2 is unknown.  The last membership
entry *present in the known Sprint set* is sprint 1, yet the aggregation adds
the estimate to no sprint at all: sprint 1's totals stay zero, refuting
"adds the ticket's estimate to exactly one sprint's category total: the
sprint that is the last entry of the membership list present in the known
Sprint set". -/
theorem last_known_sprint_counterexample :
    (([1, 2].filter fun sid =>
        mapHas (processSprintData []
          { sprints := [{ id := 1, name := "Sprint 7", state := "active" }],
            issues := [{ summary := "[BE] Fix login", estimate := 3,
                         sprintIds := [1, 2], statusName := "" }] }) sid)).getLast?
      = some 1 ∧
    getDevType "[BE] Fix login" = DevType.BE ∧
    (3 : Nat) ≠ 0 ∧
    (mapGet (processSprintData []
        { sprints := [{ id := 1, name := "Sprint 7", state := "active" }],
          issues := [{ summary := "[BE] Fix login", estimate := 3,
                       sprintIds := [1, 2], statusName := "" }] }) 1).map
      (fun info => info.summary) = some { BE := 0, FE := 0, Fullstack := 0 } := by
  decide

/-- C1 (amended): a ticket with a non-zero estimate and a non-`Other`
category is credited through the *literal last entry* of its membership
list only.  If that entry is a key of the sprint map, the estimate is added
to exactly that sprint (every other sprint's record is untouched); if the
membership list is empty, or its last entry is not a known sprint, the
ticket contributes to no sprint at all — even when an earlier membership
entry is known.  In particular a ticket with memberships `[A, B]`, both
known, contributes only to B. -/
theorem processIssue_last_entry_wins (m : SprintMap) (t : Issue)
    (hpts : t.estimate ≠ 0) (hdev : getDevType t.summary ≠ DevType.Other) :
    (∀ r info, t.sprintIds.getLast? = some r → mapGet m r = some info →
        mapGet (processIssue m t) r
            = some (addToInfo info (getDevType t.summary) t.estimate
                (isDoneStatus t.statusName)) ∧
        ∀ s, s ≠ r → mapGet (processIssue m t) s = mapGet m s) ∧
    (t.sprintIds = [] → processIssue m t = m) ∧
    (∀ r, t.sprintIds.getLast? = some r → mapGet m r = none →
        processIssue m t = m) := by
  have hdev' : (getDevType t.summary == DevType.Other) = false := by
    cases hh : getDevType t.summary
    · rfl
    · rfl
    · rfl
    · exact absurd hh hdev
  refine ⟨?_, ?_, ?_⟩
  · intro r info hlast hget
    have hne : t.sprintIds ≠ [] := by
      intro hnil
      rw [hnil] at hlast
      simp at hlast
    have hlen : t.sprintIds.length > 0 := List.length_pos.mpr hne
    constructor
    · simp [processIssue, hpts, hlen, hdev', hlast, hget, mapGet_mapSet_self]
    · intro s hs
      simp [processIssue, hpts, hlen, hdev', hlast, hget, mapGet_mapSet_ne m r _ s hs]
  · intro hnil
    simp [processIssue, hpts, hnil]
  · intro r hlast hget
    have hne : t.sprintIds ≠ [] := by
      intro hnil
      rw [hnil] at hlast
      simp at hlast
    have hlen : t.sprintIds.length > 0 := List.length_pos.mpr hne
    simp [processIssue, hpts, hlen, hdev', hlast, hget]

/-- C1 witness: `processIssue_last_entry_wins` on a ticket with memberships
`[7, 5]` against a map knowing sprint 5 only: the points land on sprint 5. -/
theorem processIssue_last_entry_wins_witness :
    mapGet (processIssue
        [(5, { id := 5, name := "Sprint 9", state := "active",
               summary := zeroSummary, detailed := zeroDetailed })]
        { summary := "[FE] Update nav", estimate := 2, sprintIds := [7, 5],
          statusName := "" }) 5
      = some (addToInfo
          { id := 5, name := "Sprint 9", state := "active",
            summary := zeroSummary, detailed := zeroDetailed }
          (getDevType "[FE] Update nav") 2 (isDoneStatus "")) :=
  ((processIssue_last_entry_wins _ _ (by decide) (by decide)).1 5 _
    (by decide) (by decide)).1

/-- Folding a step function over a list is unchanged by dropping elements on
which the step is the identity. -/
theorem foldl_filter_of_id {σ α : Type} (f : σ → α → σ) (p : α → Bool)
    (hid : ∀ acc i, p i = false → f acc i = acc) :
    ∀ (l : List α) (acc : σ), (l.filter p).foldl f acc = l.foldl f acc := by
  intro l
  induction l with
  | nil => intro acc; rfl
  | cons x xs ih =>
      intro acc
      by_cases hx : p x = true
      · simp [List.filter_cons, hx, ih]
      · have hx' : p x = false := by simpa using hx
        simp [List.filter_cons, hx', ih, hid acc x hx']

/-- A title the six-tag classifier leaves unclassified is also unclassified by
the three-tag DOM classifier (its tags are a subset). -/
theorem contentJs_other_of_other (t : String) (h : getDevType t = DevType.Other) :
    ContentJs.getDevType t = DevType.Other := by
  unfold getDevType at h
  unfold ContentJs.getDevType
  by_cases h1 : strIncludes (lowerChars t) "[fullstack]" = true <;>
    by_cases h2 : strIncludes (lowerChars t) "[fs]" = true <;>
      by_cases h3 : strIncludes (lowerChars t) "[fe]" = true <;>
        by_cases h4 : strIncludes (lowerChars t) "[frontend]" = true <;>
          by_cases h5 : strIncludes (lowerChars t) "[be]" = true <;>
            by_cases h6 : strIncludes (lowerChars t) "[backend]" = true <;>
              simp_all

/-- `processIssue` is the identity on an issue with a zero estimate or an
unclassified title. -/
theorem processIssue_id_of_skip (acc : SprintMap) (i : Issue)
    (h : (!(i.estimate == 0) && !(getDevType i.summary == DevType.Other)) = false) :
    processIssue acc i = acc := by
  by_cases hp : i.estimate = 0
  · simp [processIssue, hp]
  · have hother : getDevType i.summary = DevType.Other := by
      by_contra hno
      have hb : (getDevType i.summary == DevType.Other) = false := by
        cases hh : getDevType i.summary
        · rfl
        · rfl
        · rfl
        · exact absurd hh hno
      simp [hb, hp] at h
  
    simp [processIssue, hp, hother]

/-- `ContentJs.calcStep` is the identity on a row with zero points or an
unclassified (six-tag) title. -/
theorem calcStep_id_of_skip (acc : Summary) (i : ContentJs.DomIssue)
    (h : (!(i.storyPoints == 0) &&
        !(getDevType (i.summaryText.getD "") == DevType.Other)) = false) :
    ContentJs.calcStep acc i = acc := by
  by_cases hp : i.storyPoints = 0
  · simp [ContentJs.calcStep, hp]
  · have hother : getDevType (i.summaryText.getD "") = DevType.Other := by
      by_contra hno
      have hb : (getDevType (i.summaryText.getD "") == DevType.Other) = false := by
        cases hh : getDevType (i.summaryText.getD "")
        · rfl
        · rfl
        · rfl
        · exact absurd hh hno
      simp [hb, hp] at h
    cases hst : i.summaryText with
    | none => simp [ContentJs.calcStep, hp, hst]
    | some t =>
        have hdom : ContentJs.getDevType t = DevType.Other :=
          contentJs_other_of_other t (by simpa [hst] using hother)
        simp [ContentJs.calcStep, hp, hst, hdom]

/-- C3: every per-sprint, per-category total is a sum only over tickets with a
non-zero estimate and a classified title: dropping every ticket whose
estimate is zero or whose title matches none of the six recognized tags
changes neither the API aggregation (`processSprintData`) nor the DOM
aggregation (`calculateDevTypeSummary`). -/
theorem totals_skip_unclassified_and_zero (old : SprintMap) (data : ApiData)
    (domIssues : List ContentJs.DomIssue) :
    processSprintData old
        { data with issues := (data.issues.filter (fun i =>
            !(i.estimate == 0) && !(getDevType i.summary == DevType.Other))) }
      = processSprintData old data ∧
    ContentJs.calculateDevTypeSummary
        (domIssues.filter
          (fun i => !(i.storyPoints == 0) &&
            !(getDevType (i.summaryText.getD "") == DevType.Other)))
      = ContentJs.calculateDevTypeSummary domIssues := by
  constructor
  · unfold processSprintData
    exact foldl_filter_of_id processIssue _ processIssue_id_of_skip data.issues
      (initSprintMap data.sprints)
  · unfold ContentJs.calculateDevTypeSummary
    exact foldl_filter_of_id ContentJs.calcStep _ calcStep_id_of_skip domIssues
      { BE := 0, FE := 0, Fullstack := 0 }

/-- `addToInfo` preserves the total-equals-buckets invariant: the one category
total it bumps is matched by bumping exactly one of that category's buckets
by the same amount. -/
theorem infoInv_addToInfo (info : SprintInfo) (d : DevType) (pts : Nat)
    (isDone : Bool) (h : InfoInv info) : InfoInv (addToInfo info d pts isDone) := by
  obtain ⟨h1, h2, h3⟩ := h
  cases d <;> cases isDone <;> refine ⟨?_, ?_, ?_⟩ <;>
    simp [addToInfo] <;> omega

theorem mapInv_mapSet (m : SprintMap) (k : Nat) (v : SprintInfo)
    (hm : MapInv m) (hv : InfoInv v) : MapInv (mapSet m k v) := by
  intro sid info hget
  by_cases hs : sid = k
  · subst hs
    rw [mapGet_mapSet_self] at hget
    exact Option.some.inj hget ▸ hv
  · rw [mapGet_mapSet_ne m k v sid hs] at hget
    exact hm sid info hget

/-- Folding any `MapInv`-preserving step preserves `MapInv`. -/
theorem mapInv_foldl {α : Type} (f : SprintMap → α → SprintMap)
    (hf : ∀ m a, MapInv m → MapInv (f m a)) :
    ∀ (l : List α) (acc : SprintMap), MapInv acc → MapInv (l.foldl f acc) := by
  intro l
  induction l with
  | nil => intro acc h; exact h
  | cons x xs ih => intro acc h; exact ih (f acc x) (hf acc x h)

theorem mapInv_initSprintMap (ss : List Sprint) : MapInv (initSprintMap ss) := by
  unfold initSprintMap
  refine mapInv_foldl _ ?_ ss [] ?_
  · intro m s hm
    exact mapInv_mapSet m s.id _ hm ⟨rfl, rfl, rfl⟩
  · intro sid info hget
    simp [mapGet] at hget

theorem mapInv_processIssue (m : SprintMap) (i : Issue) (hm : MapInv m) :
    MapInv (processIssue m i) := by
  simp only [processIssue]
  split
  · exact hm
  · split
    · split
      · exact hm
      · split
        · exact hm
        · apply mapInv_mapSet _ _ _ hm
          apply infoInv_addToInfo
          apply hm
          assumption
    · exact hm

/-- C9: after `processSprintData`, every sprint record in the map satisfies
`summary[C] = detailed[C].inProgress + detailed[C].done` for each of the
three categories: each addition to a category total is paired with exactly
one addition of the same points to that category's done bucket (terminal
status) or in-progress bucket (any other status). -/
theorem summary_eq_detailed_sum (old : SprintMap) (data : ApiData) (sid : Nat)
    (info : SprintInfo) (h : mapGet (processSprintData old data) sid = some info) :
    info.summary.BE = info.detailed.BE.inProgress + info.detailed.BE.done ∧
    info.summary.FE = info.detailed.FE.inProgress + info.detailed.FE.done ∧
    info.summary.Fullstack
      = info.detailed.Fullstack.inProgress + info.detailed.Fullstack.done := by
  have hinv : MapInv (processSprintData old data) := by
    unfold processSprintData
    exact mapInv_foldl processIssue (fun m a hm => mapInv_processIssue m a hm)
      data.issues (initSprintMap data.sprints) (mapInv_initSprintMap data.sprints)
  exact hinv sid info h

/-- C9 witness: the invariant, instantiated on the sprint record produced for
sprint 1 from one done 3-point `[BE]` issue. -/
theorem summary_eq_detailed_sum_witness :
    ({ id := 1, name := "Sprint 7", state := "active",
       summary := { BE := 3, FE := 0, Fullstack := 0 },
       detailed := { BE := { inProgress := 0, done := 3 },
                     FE := { inProgress := 0, done := 0 },
                     Fullstack := { inProgress := 0, done := 0 } } } : SprintInfo).summary.BE
      = 0 + 3 ∧ (0 : Nat) = 0 + 0 ∧ (0 : Nat) = 0 + 0 :=
  summary_eq_detailed_sum []
    { sprints := [{ id := 1, name := "Sprint 7", state := "active" }],
      issues := [{ summary := "[BE] Fix login", estimate := 3, sprintIds := [1],
                   statusName := "Done" }] }
    1 _ (by decide)

/-! ## Renderer lemmas -/

theorem updateUI_cons (p : Bool) (c : Container) (cs : List Container) (st : UIState) :
    updateUI p (c :: cs) st = updateUI p cs (updateUIStep p st c) :=
  rfl

theorem updateUIStep_sprintData (p : Bool) (st : UIState) (c : Container) :
    (updateUIStep p st c).sprintData = st.sprintData := by
  simp only [updateUIStep]
  split
  · rfl
  · split
    · rfl
    · rfl

theorem updateUI_sprintData (p : Bool) (cs : List Container) (st : UIState) :
    (updateUI p cs st).sprintData = st.sprintData := by
  induction cs generalizing st with
  | nil => rfl
  | cons c cs ih =>
      rw [updateUI_cons, ih, updateUIStep_sprintData]

theorem updateUIStep_injected_mono (p : Bool) (st : UIState) (c : Container)
    (x : String) (h : x ∈ st.injectedSprints) :
    x ∈ (updateUIStep p st c).injectedSprints := by
  simp only [updateUIStep]
  split
  · exact h
  · split
    · exact h
    · simp [h]

theorem updateUI_injected_mono (p : Bool) (cs : List Container) (st : UIState)
    (x : String) (h : x ∈ st.injectedSprints) :
    x ∈ (updateUI p cs st).injectedSprints := by
  induction cs generalizing st with
  | nil => exact h
  | cons c cs ih =>
      rw [updateUI_cons]
      exact ih (updateUIStep p st c) (updateUIStep_injected_mono p st c x h)

theorem updateUIStep_adds (p : Bool) (st : UIState) (c : Container)
    (he : c.eligible = true) :
    containerId c.sprintName ∈ (updateUIStep p st c).injectedSprints := by
  simp [updateUIStep, he]
  split
  · rename_i hc
    exact hc
  · simp

/-- After one `updateUI` pass, every eligible section's dedup key is in the
processed set. -/
theorem updateUI_covers (p : Bool) (cs : List Container) (st : UIState) :
    ∀ c ∈ cs, c.eligible = true →
      containerId c.sprintName ∈ (updateUI p cs st).injectedSprints := by
  induction cs generalizing st with
  | nil => intro c hc; cases hc
  | cons c0 cs ih =>
      intro c hc he
      rw [updateUI_cons]
      rcases List.mem_cons.mp hc with rfl | hc
      · exact updateUI_injected_mono p cs _ _ (updateUIStep_adds p st c he)
      · exact ih (updateUIStep p st c0) c hc he

/-- `updateUI` is the identity once every eligible section is already in the
processed set: no badge is inserted twice. -/
theorem updateUI_noop (p : Bool) (cs : List Container) (st : UIState)
    (h : ∀ c ∈ cs, c.eligible = true →
      containerId c.sprintName ∈ st.injectedSprints) :
    updateUI p cs st = st := by
  induction cs generalizing st with
  | nil => rfl
  | cons c cs ih =>
      rw [updateUI_cons]
      have hstep : updateUIStep p st c = st := by
        simp only [updateUIStep]
        split
        · rfl
        · split
          · rfl
          · rename_i hel hc
            exfalso
            apply hc
            have he : c.eligible = true := by
              revert hel
              cases c.eligible <;> simp
            simpa [List.elem_iff] using h c (List.mem_cons_self c cs) he
      rw [hstep]
      exact ih st (fun c' hc' he' => h c' (List.mem_cons_of_mem c hc') he')

/-- A second `updateUI` pass over the same sections changes nothing, whatever
each pass's placeholder flag. -/
theorem updateUI_twice (p q : Bool) (cs : List Container) (st : UIState) :
    updateUI p cs (updateUI q cs st) = updateUI q cs st :=
  updateUI_noop p cs _ (fun c hc he => updateUI_covers q cs st c hc he)

/-- C7: the refresh is idempotent.  `processSprintData` clears and fully
rebuilds the map — its result is independent of the previous map contents —
and running the orchestrated refresh twice on the same fetch outcome and the
same page sections yields the identical state: same Aggregate Summary, same
processed-sprint set, and no second badge for any sprint already recorded. -/
theorem refresh_idempotent (outcome : FetchOutcome) (containers : List Container)
    (st : UIState) :
    (∀ (m₁ m₂ : SprintMap) (d : ApiData),
        processSprintData m₁ d = processSprintData m₂ d) ∧
    addDevTypeSummaries outcome containers (addDevTypeSummaries outcome containers st)
      = addDevTypeSummaries outcome containers st := by
  refine ⟨fun m₁ m₂ d => rfl, ?_⟩
  by_cases h1 : st.sprintData.length > 0
  · have e1 : addDevTypeSummaries outcome containers st = updateUI false containers st := by
      unfold addDevTypeSummaries
      rw [if_pos h1]
    rw [e1]
    have h1' : (updateUI false containers st).sprintData.length > 0 := by
      rw [updateUI_sprintData]
      exact h1
    unfold addDevTypeSummaries
    rw [if_pos h1']
    exact updateUI_twice false false containers st
  · have hnil : st.sprintData = [] :=
      List.length_eq_zero.mp (Nat.eq_zero_of_not_pos h1)
    cases ho : fetchSprintData st.sprintData outcome with
    | error e =>
        have e1 : addDevTypeSummaries outcome containers st
            = updateUI true containers st := by
          unfold addDevTypeSummaries
          rw [if_neg h1, ho]
        rw [e1]
        have h2 : ¬(updateUI true containers st).sprintData.length > 0 := by
          rw [updateUI_sprintData]
          exact h1
        have ho2 : fetchSprintData (updateUI true containers st).sprintData outcome
            = Except.error e := by
          rw [updateUI_sprintData]
          exact ho
        unfold addDevTypeSummaries
        rw [if_neg h2, ho2]
        exact updateUI_twice true true containers st
    | ok nd =>
        have e1 : addDevTypeSummaries outcome containers st
            = updateUI false containers { st with sprintData := nd } := by
          unfold addDevTypeSummaries
          rw [if_neg h1, ho]
        rw [e1]
        have hsd : (updateUI false containers { st with sprintData := nd }).sprintData
            = nd := updateUI_sprintData false containers _
        by_cases h2 : nd.length > 0
        · have h2' : (updateUI false containers
              { st with sprintData := nd }).sprintData.length > 0 := by
            rw [hsd]
            exact h2
          unfold addDevTypeSummaries
          rw [if_pos h2']
          exact updateUI_twice false false containers { st with sprintData := nd }
        · have hndnil : nd = [] :=
            List.length_eq_zero.mp (Nat.eq_zero_of_not_pos h2)
          subst hndnil
          have h2' : ¬(updateUI false containers
              { st with sprintData := ([] : SprintMap) }).sprintData.length > 0 := by
            rw [hsd]
            exact h2
          have ho0 : fetchSprintData ([] : SprintMap) outcome = Except.ok ([] : SprintMap) := by
            conv_lhs => rw [← hnil]
            exact ho
          have ho2 : fetchSprintData
              (updateUI false containers { st with sprintData := ([] : SprintMap) }).sprintData
                outcome
              = Except.ok ([] : SprintMap) := by
            rw [hsd]
            exact ho0
          unfold addDevTypeSummaries
          rw [if_neg h2', ho2]
          rcases hA : updateUI false containers { st with sprintData := ([] : SprintMap) }
            with ⟨asd, ainj, abd⟩
          have hasd : asd = [] := by
            have := hsd
            rw [hA] at this
            exact this
          subst hasd
          have htwice := updateUI_twice false false containers
            { st with sprintData := ([] : SprintMap) }
          rw [hA] at htwice
          exact htwice

/-- Every badge present after a placeholder `updateUI` pass either predates
the pass or shows the all-zero totals. -/
theorem updateUI_placeholder_badges (cs : List Container) (st : UIState) :
    ∀ b ∈ (updateUI true cs st).badges, b ∈ st.badges ∨ b.2 = zeroSummary := by
  induction cs generalizing st with
  | nil => intro b hb; exact Or.inl hb
  | cons c cs ih =>
      intro b hb
      rw [updateUI_cons] at hb
      rcases ih (updateUIStep true st c) b hb with h | h
      · revert h
        simp only [updateUIStep]
        split
        · exact Or.inl
        · split
          · exact Or.inl
          · intro h
            rcases List.mem_append.mp h with h | h
            · exact Or.inl h
            · rcases List.mem_singleton.mp h with rfl
              exact Or.inr (by simp)
      · exact Or.inr h

/-- C5: a non-success backlog-data response makes `fetchSprintData` fail with
an error carrying the response status (a rejected fetch fails with the
network error); the orchestration catches either failure and falls back to
the placeholder render, so every badge it produces beyond the pre-existing
ones shows the all-zero totals — no error escapes `addDevTypeSummaries`. -/
theorem fetch_failure_renders_placeholders (st : UIState) (containers : List Container)
    (status : Nat) (body : ApiData) (hst : st.sprintData = [])
    (hbad : respOk status = false) :
    fetchSprintData st.sprintData (FetchOutcome.response status body)
        = Except.error (FetchError.httpStatus status) ∧
    fetchSprintData st.sprintData FetchOutcome.networkError
        = Except.error FetchError.network ∧
    (∀ b ∈ (addDevTypeSummaries (FetchOutcome.response status body) containers st).badges,
        b ∈ st.badges ∨ b.2 = zeroSummary) ∧
    (∀ b ∈ (addDevTypeSummaries FetchOutcome.networkError containers st).badges,
        b ∈ st.badges ∨ b.2 = zeroSummary) := by
  have hfetch : fetchSprintData st.sprintData (FetchOutcome.response status body)
      = Except.error (FetchError.httpStatus status) := by
    simp [fetchSprintData, hbad]
  have hlen : ¬st.sprintData.length > 0 := by
    rw [hst]
    simp
  refine ⟨hfetch, rfl, ?_, ?_⟩
  · have e1 : addDevTypeSummaries (FetchOutcome.response status body) containers st
        = updateUI true containers st := by
      unfold addDevTypeSummaries
      rw [if_neg hlen, hfetch]
    rw [e1]
    exact updateUI_placeholder_badges containers st
  · have e1 : addDevTypeSummaries FetchOutcome.networkError containers st
        = updateUI true containers st := by
      unfold addDevTypeSummaries
      rw [if_neg hlen]
      rfl
    rw [e1]
    exact updateUI_placeholder_badges containers st

/-- C5 witness: a 500 response against an empty cache: the fetch fails with
the status-carrying error and the one eligible section gets a zero badge. -/
theorem fetch_failure_renders_placeholders_witness :
    fetchSprintData ([] : SprintMap) (FetchOutcome.response 500 { sprints := [], issues := [] })
      = Except.error (FetchError.httpStatus 500) :=
  (fetch_failure_renders_placeholders
    { sprintData := [], injectedSprints := [], badges := [] }
    [{ sprintName := "Sprint 7", eligible := true }]
    500 { sprints := [], issues := [] } rfl (by decide)).1

/-! ## Locator lemmas -/

theorem takeDigitsPrefix_append (ds : List Char) (c : Char) (rest : List Char)
    (hdig : ∀ d ∈ ds, d.isDigit = true) (hc : c.isDigit = false) :
    takeDigitsPrefix (ds ++ c :: rest) = ds := by
  induction ds with
  | nil => simp [takeDigitsPrefix, hc]
  | cons d ds ih =>
      have hd : d.isDigit = true := hdig d (List.mem_cons_self _ _)
      simp [takeDigitsPrefix, hd]
      exact ih (fun d' hd' => hdig d' (List.mem_cons_of_mem _ hd'))

theorem isPrefixOf_append_self (p t : List Char) : p.isPrefixOf (p ++ t) = true := by
  induction p with
  | nil => simp [List.isPrefixOf]
  | cons a as ih => simp [List.isPrefixOf, ih]

/-- Scanning may skip any leading segment that never contains the pattern's
first character. -/
theorem matchPatDigits_append_of_not_head (hc : Char) (pat' : List Char)
    (pre : List Char) (hpre : ∀ c ∈ pre, c ≠ hc) (rest : List Char) :
    matchPatDigits (hc :: pat') (pre ++ rest) = matchPatDigits (hc :: pat') rest := by
  induction pre with
  | nil => rfl
  | cons c pre ih =>
      have hcn : (hc == c) = false := by
        have : hc ≠ c := Ne.symm (hpre c (List.mem_cons_self _ _))
        simp [this]
      rw [List.cons_append, matchPatDigits]
      simp only [List.isPrefixOf, hcn, Bool.false_and, Bool.and_eq_true, false_and,
        if_false, Bool.false_eq_true, if_neg]
      exact ih (fun c' hc' => hpre c' (List.mem_cons_of_mem _ hc'))

/-- At a position where the pattern occurs followed by a digit run, the scan
returns exactly that maximal run. -/
theorem matchPatDigits_here (hc : Char) (pat' ds : List Char) (c : Char)
    (rest : List Char) (hne : ds ≠ []) (hdig : ∀ d ∈ ds, d.isDigit = true)
    (hc2 : c.isDigit = false) :
    matchPatDigits (hc :: pat') ((hc :: pat') ++ (ds ++ c :: rest)) = some ds := by
  rw [List.cons_append, matchPatDigits]
  have hpre : (hc :: pat').isPrefixOf (hc :: (pat' ++ (ds ++ c :: rest))) = true :=
    isPrefixOf_append_self (hc :: pat') (ds ++ c :: rest)
  have hdrop : (hc :: (pat' ++ (ds ++ c :: rest))).drop (hc :: pat').length
      = ds ++ c :: rest :=
    List.drop_left (hc :: pat') (ds ++ c :: rest)
  have hdigits : takeDigitsPrefix (ds ++ c :: rest) = ds :=
    takeDigitsPrefix_append ds c rest hdig hc2
  have hempty : ds.isEmpty = false := by
    cases ds
    · exact absurd rfl hne
    · rfl
  simp [hpre, hdrop, hdigits, hempty]

theorem matchPatDigits_none_of_not_head (hc : Char) (pat' : List Char)
    (l : List Char) (h : ∀ c ∈ l, c ≠ hc) :
    matchPatDigits (hc :: pat') l = none := by
  have hresult := matchPatDigits_append_of_not_head hc pat' l h []
  simpa using hresult

/-- C6: `extractBoardId` is total, pure, and matches the spec's three cases:
a `boards/<digits>` segment yields those digits (stated for every digit run,
placed in a realistic address); otherwise `rapidView=<digits>` yields those
digits; an address with neither pattern yields the fixed default `'24'`
(stated for every address avoiding the patterns' first characters). -/
theorem extractBoardId_spec :
    (∀ ds : List Char, ds ≠ [] → (∀ c ∈ ds, c.isDigit = true) →
        extractBoardId (String.mk
          ("https://pitchtech.atlassian.net/jira/software/c/projects/PT/".toList
            ++ "boards/".toList ++ ds ++ "/backlog".toList))
          = String.mk ds) ∧
    extractBoardId
        "https://pitchtech.atlassian.net/jira/software/c/projects/PT/boards/42/backlog"
      = "42" ∧
    extractBoardId "https://pitchtech.atlassian.net/secure/RapidBoard.jspa?rapidView=17"
      = "17" ∧
    (∀ url : String, (∀ c ∈ url.toList, c ≠ 'b' ∧ c ≠ 'r') →
        extractBoardId url = "24") := by
  refine ⟨?_, by decide, by decide, ?_⟩
  · intro ds hne hdig
    have hmain : matchPatDigits "boards/".toList
        ("https://pitchtech.atlassian.net/jira/software/c/projects/PT/".toList
          ++ "boards/".toList ++ ds ++ "/backlog".toList) = some ds := by
      have h1 : "https://pitchtech.atlassian.net/jira/software/c/projects/PT/".toList
            ++ "boards/".toList ++ ds ++ "/backlog".toList
          = "https://pitchtech.atlassian.net/jira/software/c/projects/PT/".toList
            ++ ("boards/".toList ++ (ds ++ "/backlog".toList)) := by
        simp [List.append_assoc]
      rw [h1]
      rw [show "boards/".toList = 'b' :: "oards/".toList from rfl]
      rw [matchPatDigits_append_of_not_head 'b' "oards/".toList
        "https://pitchtech.atlassian.net/jira/software/c/projects/PT/".toList (by decide)]
      rw [show "/backlog".toList = '/' :: "backlog".toList from rfl]
      exact matchPatDigits_here 'b' "oards/".toList ds '/' "backlog".toList hne hdig
        (by decide)
    have hmain' : matchPatDigits "boards/".toList
        (String.mk
          ("https://pitchtech.atlassian.net/jira/software/c/projects/PT/".toList
            ++ "boards/".toList ++ ds ++ "/backlog".toList)).toList = some ds := hmain
    unfold extractBoardId
    rw [hmain']
  · intro url h
    have h1 : matchPatDigits "boards/".toList url.toList = none := by
      rw [show "boards/".toList = 'b' :: "oards/".toList from rfl]
      exact matchPatDigits_none_of_not_head 'b' _ url.toList (fun c hc => (h c hc).1)
    have h2 : matchPatDigits "rapidView=".toList url.toList = none := by
      rw [show "rapidView=".toList = 'r' :: "apidView=".toList from rfl]
      exact matchPatDigits_none_of_not_head 'r' _ url.toList (fun c hc => (h c hc).2)
    unfold extractBoardId
    rw [h1, h2]

/-- C6 witness: `extractBoardId_spec` at the digit run `42` and at an address
containing neither pattern. -/
theorem extractBoardId_spec_witness :
    extractBoardId (String.mk
        ("https://pitchtech.atlassian.net/jira/software/c/projects/PT/".toList
          ++ "boards/".toList ++ ['4', '2'] ++ "/backlog".toList))
      = String.mk ['4', '2'] ∧
    extractBoardId "nosuchpage" = "24" :=
  ⟨extractBoardId_spec.1 ['4', '2'] (by decide) (by decide),
   extractBoardId_spec.2.2.2 "nosuchpage" (by decide)⟩
